import Mathlib

/-!
Shallow embedding of the dynamiccontrol request pipeline.

The embedded Go code comprises the OPA policy manager
(internal/opa/policy_manager.go), the JSON-schema validator
(internal/validator/schema_validator.go), the mock-data producers
(internal/types/types.go) and the gin route manager (the router package).
External collaborators are made explicit:
- the OPA engine behind a prepared query is a function from the policy
  input to an evaluation outcome (`RegoQuery`);
- the gojsonschema library is a function from (schema, document) to a
  validation outcome, stored in the `SchemaValidator`;
- `time.Now()` is an explicit `GoClock` argument;
- the gin context is replaced by explicit request data in and an
  `HttpResponse` (plus emitted log lines) out.
-/

/-- Model of a Go JSON value (an `interface{}` holding a JSON tree, as
produced by `json.Unmarshal` into `interface{}`). A top-level Go nil
interface is modelled as `Option.none` at use sites; the `null`
constructor models JSON nulls nested inside arrays/objects. Numbers are
modelled as integers since no embedded claim computes with fractional
values. -/
inductive GoValue where
  | null : GoValue
  | bool : Bool → GoValue
  | num : Int → GoValue
  | str : String → GoValue
  | arr : List GoValue → GoValue
  | obj : List (String × GoValue) → GoValue

/-- A Go `map[string]interface{}` holding a JSON-schema document,
modelled as an association list. The Go nil map and the empty map are
both modelled as `[]` (the source treats them alike:
`schema == nil || len(schema) == 0`). -/
abbrev SchemaDoc := List (String × GoValue)

/-- The policy input built by `CreatePolicyInput`
(a Go `map[string]interface{}`), modelled as an association list. -/
abbrev PolicyInput := List (String × GoValue)

/-- Model of one `rego.Result`: the list of its expressions' `Value`
fields (the source reads `results[0].Expressions[0].Value`). -/
structure RegoResult where
  expressions : List GoValue

/-- Model of the outcome of `preparedQuery.Eval`: either an engine-level
error or a `rego.ResultSet`. -/
inductive RegoEval where
  | err : String → RegoEval
  | ok : List RegoResult → RegoEval

/-- Model of a `rego.PreparedEvalQuery`: the opaque compiled predicate is
a function from the evaluation input to the engine outcome. -/
abbrev RegoQuery := PolicyInput → RegoEval

/-- Model of `opa.PolicyManager`: the `policies` map from policy name to
prepared query, as an association list looked up with `List.lookup`. -/
structure PolicyManager where
  policies : List (String × RegoQuery)

/-- Model of `types.PolicyResult` (`Allowed bool`, `Error string` with
omitempty; the zero value of `Error` is `""`). -/
structure PolicyResult where
  allowed : Bool
  error : String

/-- Embedding of `(*PolicyManager).EvaluatePolicy`. The second component
of the returned pair is the Go `error` return value (every branch of the
source returns `nil`, i.e. `none`). -/
def EvaluatePolicy (pm : PolicyManager) (policyName : String) (input : PolicyInput) :
    PolicyResult × Option String :=
  match List.lookup policyName pm.policies with
  | none =>
    ({ allowed := false, error := "Policy " ++ policyName ++ " not found" }, none)
  | some preparedQuery =>
    match preparedQuery input with
    | RegoEval.err e =>
      ({ allowed := false, error := "Policy evaluation error: " ++ e }, none)
    | RegoEval.ok results =>
      match results with
      | [] => ({ allowed := false, error := "No policy result found" }, none)
      | result0 :: _ =>
        match result0.expressions with
        | [] => ({ allowed := false, error := "No policy result found" }, none)
        | value0 :: _ =>
          match value0 with
          | GoValue.bool b => ({ allowed := b, error := "" }, none)
          | _ => ({ allowed := false, error := "Policy result is not a boolean" }, none)

/-- The `for _, policyName := range policyNames` loop body of
`(*PolicyManager).EvaluatePolicies`, as structural recursion over the
remaining names. Falling off the end of the loop corresponds to the final
`return &types.PolicyResult{Allowed: true}, nil`. -/
def evaluatePoliciesLoop (pm : PolicyManager) (input : PolicyInput) :
    List String → PolicyResult × Option String
  | [] => ({ allowed := true, error := "" }, none)
  | policyName :: rest =>
    match EvaluatePolicy pm policyName input with
    | (_, some e) =>
      ({ allowed := false, error := "Policy evaluation error: " ++ e }, none)
    | (result, none) =>
      if result.allowed = false then
        ({ allowed := false, error := "Policy " ++ policyName ++ " denied the request" }, none)
      else
        evaluatePoliciesLoop pm input rest

/-- Embedding of `(*PolicyManager).EvaluatePolicies`: the explicit
`len(policyNames) == 0` early return followed by the loop. -/
def EvaluatePolicies (pm : PolicyManager) (policyNames : List String) (input : PolicyInput) :
    PolicyResult × Option String :=
  if policyNames.length = 0 then
    ({ allowed := true, error := "" }, none)
  else
    evaluatePoliciesLoop pm input policyNames

/-- Models `json.Marshal(body)` followed by `json.Unmarshal` into a
`map[string]interface{}` in `CreatePolicyInput`. For a JSON-tree value
`json.Marshal` cannot fail, and unmarshalling into a map succeeds exactly
when the marshalled value is a JSON object, reproducing its fields. (At
the call sites a body that would marshal to JSON `null` is the nil
interface, which is the `Option.none` case of the caller and never
reaches this function.) -/
def unmarshalObject : GoValue → Option (List (String × GoValue))
  | GoValue.obj fields => some fields
  | _ => none

/-- Models storing a Go `map[string]string` (the request headers) as a
JSON-like `interface{}` value. -/
def headersToGoValue (headers : List (String × String)) : GoValue :=
  GoValue.obj (headers.map (fun p => (p.1, GoValue.str p.2)))

/-- Embedding of `opa.CreatePolicyInput`. -/
def CreatePolicyInput (method path : String) (headers : List (String × String))
    (body : Option GoValue) : PolicyInput :=
  let input : PolicyInput :=
    [("method", GoValue.str method), ("path", GoValue.str path),
     ("headers", headersToGoValue headers)]
  match body with
  | none => input
  | some b =>
    match unmarshalObject b with
    | some bodyMap => input ++ [("body", GoValue.obj bodyMap)]
    | none => input

/-- Model of a `gojsonschema.Result` as consumed by the source:
`Valid()` and the rendered `Errors()` strings. -/
structure GojsonResult where
  valid : Bool
  errors : List String

/-- Model of `validator.SchemaValidator`. The `engine` field models the
external `gojsonschema.Validate` call on the marshalled (schema, data)
pair; it may fail with an engine error, matching the error return of
`gojsonschema.Validate`. The Go struct's `schemas` map field is never
read by any embedded function and is omitted. `json.Marshal` of the
schema map and of a JSON-tree data value cannot fail, so the two
marshal-error early returns of the source are unreachable in this model
and are not represented. -/
structure SchemaValidator where
  engine : SchemaDoc → Option GoValue → Except String GojsonResult

/-- Model of `types.ValidationResult` (`Valid`, `Errors`, `Details`;
zero values are `[]` and `""`). -/
structure ValidationResult where
  valid : Bool
  errors : List String
  details : String

/-- Embedding of `(*SchemaValidator).ValidateRequest`. -/
def ValidateRequest (sv : SchemaValidator) (schema : SchemaDoc) (data : Option GoValue) :
    ValidationResult :=
  if schema.length = 0 then
    { valid := true, errors := [], details := "" }
  else
    match sv.engine schema data with
    | Except.error e =>
      { valid := false, errors := ["Validation error: " ++ e], details := "" }
    | Except.ok result =>
      if result.valid then
        { valid := true, errors := [], details := "" }
      else
        { valid := false, errors := result.errors,
          details := "Validation failed with " ++ toString result.errors.length ++ " errors" }

/-- Embedding of `(*SchemaValidator).ValidateResponse`, which delegates
to `ValidateRequest`. -/
def ValidateResponse (sv : SchemaValidator) (schema : SchemaDoc) (data : Option GoValue) :
    ValidationResult :=
  ValidateRequest sv schema data

/-- Model of `types.StatusResponse`; `time.Time` values are modelled as
opaque rendered strings. -/
structure StatusResponse where
  status : String
  timestamp : String
  version : String
  uptime : Int

/-- Model of `types.TrafficRequest`; `Volume float64` is modelled as an
integer since no embedded code path computes with it (the mock producer
ignores the request entirely). -/
structure TrafficRequest where
  trafficType : String
  volume : Int
  priority : String
  metadata : List (String × GoValue)

/-- Model of `types.TrafficResponse`. -/
structure TrafficResponse where
  id : String
  serviceId : String
  status : String
  message : String
  timestamp : String

/-- Explicit model of `time.Now()`: `now` is the marshalled timestamp
and `nowCompact` its `Format("20060102150405")` rendering used by
`generateID`. -/
structure GoClock where
  now : String
  nowCompact : String

/-- Embedding of `(*MockData).GenerateStatusResponse` (the receiver's
stored maps are never read by it). -/
def GenerateStatusResponse (clock : GoClock) : StatusResponse :=
  { status := "healthy", timestamp := clock.now, version := "1.0.0", uptime := 3600 }

/-- Embedding of `(*MockData).GenerateTrafficResponse` together with
`generateID` (the receiver's stored maps and the `request` argument are
never read by the source). -/
def GenerateTrafficResponse (serviceID : String) (request : TrafficRequest)
    (clock : GoClock) : TrafficResponse :=
  { id := "traffic-" ++ clock.nowCompact
    serviceId := serviceID
    status := "accepted"
    message := "Traffic request processed successfully"
    timestamp := clock.now }

/-- Models `json.Marshal` of a `StatusResponse` as the JSON object its
struct tags produce. -/
def statusResponseToGoValue (r : StatusResponse) : GoValue :=
  GoValue.obj [("status", GoValue.str r.status), ("timestamp", GoValue.str r.timestamp),
               ("version", GoValue.str r.version), ("uptime", GoValue.num r.uptime)]

/-- Models `json.Marshal` of a `TrafficResponse` as the JSON object its
struct tags produce. -/
def trafficResponseToGoValue (r : TrafficResponse) : GoValue :=
  GoValue.obj [("id", GoValue.str r.id), ("serviceId", GoValue.str r.serviceId),
               ("status", GoValue.str r.status), ("message", GoValue.str r.message),
               ("timestamp", GoValue.str r.timestamp)]

/-- The hardcoded schema literal of
`(*SchemaValidator).ValidateStatusResponse`. -/
def statusResponseSchema : SchemaDoc :=
  [("type", GoValue.str "object"),
   ("properties", GoValue.obj
     [("status", GoValue.obj [("type", GoValue.str "string"),
        ("enum", GoValue.arr [GoValue.str "healthy", GoValue.str "degraded",
                              GoValue.str "unhealthy"])]),
      ("timestamp", GoValue.obj [("type", GoValue.str "string"),
        ("format", GoValue.str "date-time")]),
      ("version", GoValue.obj [("type", GoValue.str "string")]),
      ("uptime", GoValue.obj [("type", GoValue.str "number")])]),
   ("required", GoValue.arr [GoValue.str "status", GoValue.str "timestamp",
                             GoValue.str "version", GoValue.str "uptime"])]

/-- The hardcoded schema literal of
`(*SchemaValidator).ValidateTrafficResponse`. -/
def trafficResponseSchema : SchemaDoc :=
  [("type", GoValue.str "object"),
   ("properties", GoValue.obj
     [("id", GoValue.obj [("type", GoValue.str "string")]),
      ("serviceId", GoValue.obj [("type", GoValue.str "string")]),
      ("status", GoValue.obj [("type", GoValue.str "string"),
        ("enum", GoValue.arr [GoValue.str "accepted", GoValue.str "rejected",
                              GoValue.str "pending"])]),
      ("message", GoValue.obj [("type", GoValue.str "string")]),
      ("timestamp", GoValue.obj [("type", GoValue.str "string"),
        ("format", GoValue.str "date-time")])]),
   ("required", GoValue.arr [GoValue.str "id", GoValue.str "serviceId",
                             GoValue.str "status", GoValue.str "message",
                             GoValue.str "timestamp"])]

/-- Embedding of `(*SchemaValidator).ValidateStatusResponse`. -/
def ValidateStatusResponse (sv : SchemaValidator) (response : StatusResponse) :
    ValidationResult :=
  ValidateResponse sv statusResponseSchema (some (statusResponseToGoValue response))

/-- Embedding of `(*SchemaValidator).ValidateTrafficResponse`. -/
def ValidateTrafficResponse (sv : SchemaValidator) (response : TrafficResponse) :
    ValidationResult :=
  ValidateResponse sv trafficResponseSchema (some (trafficResponseToGoValue response))

/-- Embedding of `strings.TrimPrefix`. -/
def trimPfx (s pre : String) : String :=
  if s.startsWith pre then s.drop pre.length else s

/-- Embedding of `validator.FormatValidationErrors`. -/
def FormatValidationErrors (errors : List String) : String :=
  if errors.length = 0 then ""
  else
    String.intercalate "; "
      (errors.map (fun e => trimPfx (trimPfx e "(root): ") "I[0,"))

/-- Models the `%v` rendering of a `[]string` used by the handlers'
`log.Printf("Response validation failed: %v", ...)` calls. -/
def renderStringList (xs : List String) : String :=
  "[" ++ String.intercalate " " xs ++ "]"

/-- Model of `types.RouteConfig`. -/
structure RouteConfig where
  routeName : String
  method : String
  requestSchema : SchemaDoc
  responseSchema : SchemaDoc
  policies : List String

/-- Model of `router.RouteManager` restricted to the fields the embedded
handlers read (`config` is only read by `RegisterRoutes`/`GetConfig`, and
the `mockData` receiver state is never read by the generator methods). -/
structure RouteManager where
  policyManager : PolicyManager
  schemaValidator : SchemaValidator

/-- The observable outcome of one handler invocation: which
`c.JSON(status, body)` call fired, by HTTP status, with the marshalled
body. `ok none` models `c.JSON(http.StatusOK, nil)` (the POST traffic
branch can leave `response` nil when the split path is too short). -/
inductive HttpResponse where
  | badRequest : GoValue → HttpResponse
  | forbidden : GoValue → HttpResponse
  | internalServerError : GoValue → HttpResponse
  | methodNotAllowed : GoValue → HttpResponse
  | ok : Option GoValue → HttpResponse

/-- Character-level prefix test on the underlying character lists (Go
strings compare byte-wise; all strings involved are ASCII). -/
def charsHasPfx : List Char → List Char → Bool
  | [], _ => true
  | _ :: _, [] => false
  | a :: as, b :: bs => a == b && charsHasPfx as bs

/-- Occurrence test of `sub` inside a character list. -/
def containsChars (sub : List Char) : List Char → Bool
  | [] => sub.isEmpty
  | c :: cs => charsHasPfx sub (c :: cs) || containsChars sub cs

/-- Models `strings.Contains`. -/
def strContains (s sub : String) : Bool :=
  containsChars sub.data s.data

/-- Models `strings.HasSuffix`. -/
def strHasSfx (s sfx : String) : Bool :=
  charsHasPfx sfx.data.reverse s.data.reverse

/-- Models `strings.Split` with a single-character separator (the source
only ever splits on "/"). -/
def splitChars (sep : Char) : List Char → List (List Char)
  | [] => [[]]
  | c :: cs =>
    let rest := splitChars sep cs
    if c == sep then
      [] :: rest
    else
      match rest with
      | [] => [[c]]
      | r :: rs => (c :: r) :: rs

/-- Models `strings.Split(s, sep)` for a one-character `sep`. -/
def strSplit (s : String) (sep : Char) : List String :=
  (splitChars sep s.data).map (fun cs => String.mk cs)

/-- Models the nil-Go-interface rendering of `c.JSON` bodies: a nil
request body marshals to JSON null. -/
def optGoValue : Option GoValue → GoValue
  | none => GoValue.null
  | some v => v

/-- Models `json.Marshal` of the parsed request body followed by
`json.Unmarshal` into a `types.TrafficRequest` in `handlePOST`. The
source discards the unmarshal error, leaving zero-valued fields on
mismatch; field-level decode detail cannot affect any handler output
because `GenerateTrafficResponse` ignores its request argument. -/
def decodeTrafficRequest (body : Option GoValue) : TrafficRequest :=
  match body with
  | some (GoValue.obj fields) =>
    { trafficType := match List.lookup "trafficType" fields with
        | some (GoValue.str s) => s
        | _ => ""
      volume := match List.lookup "volume" fields with
        | some (GoValue.num v) => v
        | _ => 0
      priority := match List.lookup "priority" fields with
        | some (GoValue.str s) => s
        | _ => ""
      metadata := match List.lookup "metadata" fields with
        | some (GoValue.obj m) => m
        | _ => [] }
  | _ => { trafficType := "", volume := 0, priority := "", metadata := [] }

/-- Embedding of `(*RouteManager).handleGET`. The Go `switch
route.RouteName { case "/v1/status": ...; default: ... }` is the
equality test on the route name. The second component collects the
`log.Printf` lines the handler emits. -/
def handleGET (rm : RouteManager) (route : RouteConfig) (headers : List (String × String))
    (clock : GoClock) : HttpResponse × List String :=
  let input := CreatePolicyInput "GET" route.routeName headers none
  match EvaluatePolicies rm.policyManager route.policies input with
  | (_, some e) =>
    (HttpResponse.internalServerError (GoValue.obj
      [("error", GoValue.str ("Policy evaluation error: " ++ e))]), [])
  | (policyResult, none) =>
    if policyResult.allowed = false then
      (HttpResponse.forbidden (GoValue.obj
        [("error", GoValue.str ("Request denied by policy: " ++ policyResult.error))]), [])
    else
      if route.routeName = "/v1/status" then
        let statusResponse := GenerateStatusResponse clock
        let validationResult := ValidateStatusResponse rm.schemaValidator statusResponse
        let logs := if validationResult.valid = false then
            ["Response validation failed: " ++ renderStringList validationResult.errors]
          else []
        (HttpResponse.ok (some (statusResponseToGoValue statusResponse)), logs)
      else
        (HttpResponse.ok (some (GoValue.obj
          [("message", GoValue.str "GET request processed successfully"),
           ("route", GoValue.str route.routeName),
           ("method", GoValue.str route.method)])), [])

/-- Embedding of `(*RouteManager).handlePOST`. `bindResult` models
`c.ShouldBindJSON(&requestBody)`: a JSON parse error, or the parsed body
(`none` when the body unmarshals to the nil interface). `urlPath` models
`c.Request.URL.Path`. The Go `switch { case strings.Contains(...) &&
strings.HasSuffix(...): ...; default: ... }` is the boolean test. -/
def handlePOST (rm : RouteManager) (route : RouteConfig) (headers : List (String × String))
    (bindResult : Except String (Option GoValue)) (urlPath : String) (clock : GoClock) :
    HttpResponse × List String :=
  match bindResult with
  | Except.error e =>
    (HttpResponse.badRequest (GoValue.obj
      [("error", GoValue.str ("Invalid JSON: " ++ e))]), [])
  | Except.ok requestBody =>
    let validationResult := ValidateRequest rm.schemaValidator route.requestSchema requestBody
    if validationResult.valid = false then
      (HttpResponse.badRequest (GoValue.obj
        [("error", GoValue.str "Request validation failed"),
         ("details", GoValue.str (FormatValidationErrors validationResult.errors))]), [])
    else
      let input := CreatePolicyInput "POST" route.routeName headers requestBody
      match EvaluatePolicies rm.policyManager route.policies input with
      | (_, some e) =>
        (HttpResponse.internalServerError (GoValue.obj
          [("error", GoValue.str ("Policy evaluation error: " ++ e))]), [])
      | (policyResult, none) =>
        if policyResult.allowed = false then
          (HttpResponse.forbidden (GoValue.obj
            [("error", GoValue.str ("Request denied by policy: " ++ policyResult.error))]), [])
        else
          if strContains route.routeName "/services/" && strHasSfx route.routeName "/traffic" then
            let pathParts := strSplit urlPath '/'
            if pathParts.length ≥ 4 then
              let serviceID := pathParts.getD 3 ""
              let trafficRequest := decodeTrafficRequest requestBody
              let trafficResponse := GenerateTrafficResponse serviceID trafficRequest clock
              let responseValidation := ValidateTrafficResponse rm.schemaValidator trafficResponse
              let logs := if responseValidation.valid = false then
                  ["Response validation failed: " ++ renderStringList responseValidation.errors]
                else []
              (HttpResponse.ok (some (trafficResponseToGoValue trafficResponse)), logs)
            else
              (HttpResponse.ok none, [])
          else
            (HttpResponse.ok (some (GoValue.obj
              [("message", GoValue.str "POST request processed successfully"),
               ("route", GoValue.str route.routeName),
               ("method", GoValue.str route.method),
               ("data", optGoValue requestBody)])), [])

/-- The per-request data the gin context supplies to the generated
handler: the raw header map (each name with all its values), the JSON
bind outcome, the raw URL path, and the clock. -/
structure RequestData where
  rawHeaders : List (String × List String)
  bindResult : Except String (Option GoValue)
  urlPath : String
  clock : GoClock

/-- The header-extraction loop at the top of the generated handler:
keeps the first value of every header that has one. -/
def extractHeaders (raw : List (String × List String)) : List (String × String) :=
  raw.filterMap (fun p =>
    match p.2 with
    | [] => none
    | v :: _ => some (p.1, v))

/-- Embedding of the closure returned by
`(*RouteManager).createHandler`: extract headers, then dispatch on the
configured method — the inner switch only handles GET and POST, every
other method answers 405. -/
def createHandler (rm : RouteManager) (route : RouteConfig) (req : RequestData) :
    HttpResponse × List String :=
  let headers := extractHeaders req.rawHeaders
  if route.method = "GET" then
    handleGET rm route headers req.clock
  else if route.method = "POST" then
    handlePOST rm route headers req.bindResult req.urlPath req.clock
  else
    (HttpResponse.methodNotAllowed (GoValue.obj
      [("error", GoValue.str "Method not allowed")]), [])

/-- Embedding of `(*RouteManager).registerRoute`: the switch accepts
exactly GET, POST, PUT and DELETE (each arm registers `createHandler`
on the gin router, an external effect); any other method is rejected. -/
def registerRoute (route : RouteConfig) : Except String Unit :=
  if route.method = "GET" ∨ route.method = "POST" ∨
      route.method = "PUT" ∨ route.method = "DELETE" then
    Except.ok ()
  else
    Except.error ("unsupported HTTP method: " ++ route.method)

/-- The engine outcomes `EvaluatePolicy` treats as ambiguous per the
specification: an engine-level error, an empty result set or expression
list, or a non-boolean first expression value. -/
def ambiguousEval : RegoEval → Bool
  | RegoEval.err _ => true
  | RegoEval.ok [] => true
  | RegoEval.ok (r :: _) =>
    match r.expressions with
    | [] => true
    | v :: _ =>
      match v with
      | GoValue.bool _ => false
      | _ => true

/-- A prepared query that always yields `allow = true`. -/
def qAllow : RegoQuery := fun _ => RegoEval.ok [{ expressions := [GoValue.bool true] }]

/-- A prepared query that always yields `allow = false`. -/
def qDeny : RegoQuery := fun _ => RegoEval.ok [{ expressions := [GoValue.bool false] }]

/-- A prepared query whose evaluation yields an empty result set. -/
def qEmptyResults : RegoQuery := fun _ => RegoEval.ok []

/-- A sample manager with one allowing, one denying and one further
allowing policy. -/
def pmSample : PolicyManager :=
  { policies := [("pa", qAllow), ("pd", qDeny), ("px", qAllow)] }

/-- A sample manager whose only policy produces no result. -/
def pmAmb : PolicyManager := { policies := [("pe", qEmptyResults)] }

/-- A validator whose external engine accepts every document. -/
def svPass : SchemaValidator :=
  { engine := fun _ _ => Except.ok { valid := true, errors := [] } }

/-- A validator whose external engine rejects every document. -/
def svFail : SchemaValidator :=
  { engine := fun _ _ => Except.ok { valid := false, errors := ["schema violated"] } }

/-- A validator whose external engine rejects exactly against
single-entry schema documents (used to separate a route's configured
response schema from the handlers' hardcoded ones). -/
def svRouteOnlyFail : SchemaValidator :=
  { engine := fun schema _ =>
      if schema.length = 1 then
        Except.ok { valid := false, errors := ["route response schema violated"] }
      else
        Except.ok { valid := true, errors := [] } }

/-- A fixed sample clock. -/
def clockSample : GoClock :=
  { now := "2024-01-01T00:00:00Z", nowCompact := "20240101000000" }

/-- The status route as configured, with no policies. -/
def routeStatusSample : RouteConfig :=
  { routeName := "/v1/status", method := "GET", requestSchema := [],
    responseSchema := [], policies := [] }

/-- A traffic route with empty request schema and no policies. -/
def routeTrafficSample : RouteConfig :=
  { routeName := "/v1/services/:serviceId/traffic", method := "POST",
    requestSchema := [], responseSchema := [], policies := [] }

/-- A POST route with a one-entry request schema. -/
def routePostSample : RouteConfig :=
  { routeName := "/r", method := "POST",
    requestSchema := [("type", GoValue.str "object")],
    responseSchema := [], policies := [] }

/-- A PUT route. -/
def routePutSample : RouteConfig :=
  { routeName := "/x", method := "PUT", requestSchema := [],
    responseSchema := [], policies := [] }

/-- A status route carrying a one-entry configured response schema. -/
def routeStatusWithRespSchema : RouteConfig :=
  { routeName := "/v1/status", method := "GET", requestSchema := [],
    responseSchema := [("type", GoValue.str "object")], policies := [] }

/-- Sample request data for handler invocations. -/
def reqSample : RequestData :=
  { rawHeaders := [], bindResult := Except.ok none, urlPath := "/x",
    clock := clockSample }

/-- Every return branch of `EvaluatePolicy` returns a nil Go error. -/
theorem evaluatePolicy_err_none (pm : PolicyManager) (policyName : String)
    (input : PolicyInput) : (EvaluatePolicy pm policyName input).2 = none := by
  unfold EvaluatePolicy
  repeat' (first | rfl | split)

/-- An unregistered name makes `EvaluatePolicy` take the not-found
branch. -/
theorem evaluatePolicy_unregistered (pm : PolicyManager) (policyName : String)
    (input : PolicyInput) (h : List.lookup policyName pm.policies = none) :
    EvaluatePolicy pm policyName input
      = ({ allowed := false, error := "Policy " ++ policyName ++ " not found" }, none) := by
  unfold EvaluatePolicy
  rw [h]

/-- Every return branch of the `EvaluatePolicies` loop returns a nil Go
error. -/
theorem evaluatePoliciesLoop_err_none (pm : PolicyManager) (input : PolicyInput)
    (names : List String) : (evaluatePoliciesLoop pm input names).2 = none := by
  induction names with
  | nil => rfl
  | cons a rest ih =>
    rcases hE : EvaluatePolicy pm a input with ⟨r, err⟩
    have herr : err = none := by
      have h := evaluatePolicy_err_none pm a input
      rw [hE] at h
      exact h
    subst herr
    simp only [evaluatePoliciesLoop, hE]
    split
    · rfl
    · exact ih

/-- `EvaluatePolicies` always returns a nil Go error. -/
theorem evaluatePolicies_err_none (pm : PolicyManager) (names : List String)
    (input : PolicyInput) : (EvaluatePolicies pm names input).2 = none := by
  unfold EvaluatePolicies
  split
  · rfl
  · exact evaluatePoliciesLoop_err_none pm input names

/-- On a non-empty name list `EvaluatePolicies` is its loop. -/
theorem evaluatePolicies_ne_nil (pm : PolicyManager) (names : List String)
    (input : PolicyInput) (h : names ≠ []) :
    EvaluatePolicies pm names input = evaluatePoliciesLoop pm input names := by
  unfold EvaluatePolicies
  rw [if_neg]
  simpa [List.length_eq_zero] using h

/-- The loop allows exactly when every listed policy individually
allows. -/
theorem evaluatePoliciesLoop_allowed_iff (pm : PolicyManager) (input : PolicyInput)
    (names : List String) :
    (evaluatePoliciesLoop pm input names).1.allowed = true ↔
      ∀ n ∈ names, (EvaluatePolicy pm n input).1.allowed = true := by
  induction names with
  | nil => simp [evaluatePoliciesLoop]
  | cons a rest ih =>
    rcases hE : EvaluatePolicy pm a input with ⟨r, err⟩
    have herr : err = none := by
      have h := evaluatePolicy_err_none pm a input
      rw [hE] at h
      exact h
    subst herr
    simp only [evaluatePoliciesLoop, hE]
    by_cases hr : r.allowed = false
    · simp only [hr, if_pos rfl]
      constructor
      · intro hfalse
        cases hfalse
      · intro hall
        have ha := hall a (by simp)
        rw [hE] at ha
        rw [hr] at ha
        cases ha
    · rw [if_neg hr]
      have hra : r.allowed = true := by
        cases hb : r.allowed
        · exact absurd hb hr
        · rfl
      constructor
      · intro hrest n hn
        rcases List.mem_cons.mp hn with h1 | h1
        · subst h1
          rw [hE]
          exact hra
        · exact (ih.mp hrest) n h1
      · intro hall
        exact ih.mpr (fun n hn => hall n (List.mem_cons_of_mem a hn))

/-- When every name before `d` allows and `d` denies, the loop stops at
`d` with the denial message naming `d`, regardless of what follows. -/
theorem evaluatePoliciesLoop_shortCircuit (pm : PolicyManager) (input : PolicyInput)
    (pre : List String) (d : String) (post : List String)
    (hpre : ∀ n ∈ pre, (EvaluatePolicy pm n input).1.allowed = true)
    (hd : (EvaluatePolicy pm d input).1.allowed = false) :
    evaluatePoliciesLoop pm input (pre ++ d :: post)
      = ({ allowed := false, error := "Policy " ++ d ++ " denied the request" }, none) := by
  induction pre with
  | nil =>
    rcases hE : EvaluatePolicy pm d input with ⟨r, err⟩
    have herr : err = none := by
      have h := evaluatePolicy_err_none pm d input
      rw [hE] at h
      exact h
    subst herr
    have hr : r.allowed = false := by
      rw [hE] at hd
      exact hd
    simp only [List.nil_append, evaluatePoliciesLoop, hE]
    rw [if_pos hr]
  | cons a rest ih =>
    have ha : (EvaluatePolicy pm a input).1.allowed = true := hpre a (by simp)
    rcases hE : EvaluatePolicy pm a input with ⟨r, err⟩
    have herr : err = none := by
      have h := evaluatePolicy_err_none pm a input
      rw [hE] at h
      exact h
    subst herr
    have hr : r.allowed = true := by
      rw [hE] at ha
      exact ha
    simp only [List.cons_append, evaluatePoliciesLoop, hE]
    rw [if_neg (by simp [hr])]
    exact ih (fun n hn => hpre n (List.mem_cons_of_mem a hn))

/-- A list containing an unregistered name never makes the loop allow. -/
theorem evaluatePoliciesLoop_unregistered (pm : PolicyManager) (input : PolicyInput)
    (names : List String) (n : String) (hmem : n ∈ names)
    (hunreg : List.lookup n pm.policies = none) :
    (evaluatePoliciesLoop pm input names).1.allowed = false := by
  cases hb : (evaluatePoliciesLoop pm input names).1.allowed
  · rfl
  · exfalso
    have hall := (evaluatePoliciesLoop_allowed_iff pm input names).mp hb
    have hn := hall n hmem
    rw [evaluatePolicy_unregistered pm n input hunreg] at hn
    cases hn

/-- Claim C1: for every non-empty ordered list of policy names and every
input, `EvaluatePolicies` allows exactly when every named policy
individually allows; and whenever the list splits as `pre ++ d :: post`
with every name in `pre` allowing and `d` denying, the combined result is
the denial whose error names `d` — the first denier in list order — and
is independent of everything in `post` (the loop short-circuits there). -/
theorem evaluatePolicies_conjunction_law (pm : PolicyManager) (input : PolicyInput)
    (names : List String) (hne : names ≠ []) :
    ((EvaluatePolicies pm names input).1.allowed = true ↔
        ∀ n ∈ names, (EvaluatePolicy pm n input).1.allowed = true)
    ∧ (∀ pre d post, names = pre ++ d :: post →
        (∀ n ∈ pre, (EvaluatePolicy pm n input).1.allowed = true) →
        (EvaluatePolicy pm d input).1.allowed = false →
        (EvaluatePolicies pm names input).1
          = { allowed := false, error := "Policy " ++ d ++ " denied the request" }) := by
  rw [evaluatePolicies_ne_nil pm names input hne]
  constructor
  · exact evaluatePoliciesLoop_allowed_iff pm input names
  · intro pre d post hsplit hpre hd
    rw [hsplit, evaluatePoliciesLoop_shortCircuit pm input pre d post hpre hd]

/-- Witness for C1 at a concrete three-policy manager where the second
policy denies. -/
theorem evaluatePolicies_conjunction_law_witness :
    ((EvaluatePolicies pmSample ["pa", "pd", "px"] []).1.allowed = true ↔
        ∀ n ∈ ["pa", "pd", "px"], (EvaluatePolicy pmSample n []).1.allowed = true)
    ∧ (∀ pre d post, ["pa", "pd", "px"] = pre ++ d :: post →
        (∀ n ∈ pre, (EvaluatePolicy pmSample n []).1.allowed = true) →
        (EvaluatePolicy pmSample d []).1.allowed = false →
        (EvaluatePolicies pmSample ["pa", "pd", "px"] []).1
          = { allowed := false, error := "Policy " ++ d ++ " denied the request" }) :=
  evaluatePolicies_conjunction_law pmSample [] ["pa", "pd", "px"] (by decide)

/-- Claim C2: a name list containing an unregistered policy never
evaluates to allow, and evaluating a single unregistered name yields
`allowed = false` with the not-found error (and a nil Go error). -/
theorem evaluatePolicies_fail_closed (pm : PolicyManager) (input : PolicyInput)
    (names : List String) (n : String) (hmem : n ∈ names)
    (hunreg : List.lookup n pm.policies = none) :
    (EvaluatePolicies pm names input).1.allowed = false
    ∧ EvaluatePolicy pm n input
        = ({ allowed := false, error := "Policy " ++ n ++ " not found" }, none) := by
  constructor
  · have hne : names ≠ [] := by
      intro h
      rw [h] at hmem
      cases hmem
    rw [evaluatePolicies_ne_nil pm names input hne]
    exact evaluatePoliciesLoop_unregistered pm input names n hmem hunreg
  · exact evaluatePolicy_unregistered pm n input hunreg

/-- Witness for C2: the name "zz" is not registered in the sample
manager. -/
theorem evaluatePolicies_fail_closed_witness :
    (EvaluatePolicies pmSample ["pa", "zz", "px"] []).1.allowed = false
    ∧ EvaluatePolicy pmSample "zz" []
        = ({ allowed := false, error := "Policy " ++ "zz" ++ " not found" }, none) :=
  evaluatePolicies_fail_closed pmSample [] ["pa", "zz", "px"] "zz" (by decide) rfl

/-- Claim C5: the empty (or nil) schema makes `ValidateRequest` answer
valid immediately, for every data value and every external engine (so no
inspection of the value occurs). -/
theorem validateRequest_empty_schema (sv : SchemaValidator) (data : Option GoValue) :
    ValidateRequest sv [] data = { valid := true, errors := [], details := "" } :=
  rfl

/-- Appending to a non-empty string never gives the empty string. -/
theorem string_append_ne_empty (s t : String) (hs : s.data ≠ []) : s ++ t ≠ "" := by
  intro h
  apply hs
  have hd := congrArg String.data h
  rw [String.data_append] at hd
  exact (List.append_eq_nil.mp hd).1

/-- Claim C6: for a registered policy whose engine outcome is ambiguous
(engine error, empty result or expression list, or non-boolean value),
`EvaluatePolicy` answers `allowed = false` with a non-empty diagnostic —
never allow. -/
theorem evaluatePolicy_no_default_allow (pm : PolicyManager) (input : PolicyInput)
    (policyName : String) (q : RegoQuery)
    (hq : List.lookup policyName pm.policies = some q)
    (hamb : ambiguousEval (q input) = true) :
    (EvaluatePolicy pm policyName input).1.allowed = false
    ∧ (EvaluatePolicy pm policyName input).1.error ≠ "" := by
  rcases hqe : q input with e | results
  · constructor
    · simp [EvaluatePolicy, hq, hqe]
    · simp only [EvaluatePolicy, hq, hqe]
      exact string_append_ne_empty "Policy evaluation error: " e (by decide)
  · rcases results with _ | ⟨r, rs⟩
    · constructor
      · simp [EvaluatePolicy, hq, hqe]
      · simp only [EvaluatePolicy, hq, hqe]
        decide
    · rcases hr : r.expressions with _ | ⟨v, vs⟩
      · constructor
        · simp [EvaluatePolicy, hq, hqe, hr]
        · simp only [EvaluatePolicy, hq, hqe, hr]
          decide
      · cases v with
        | bool b =>
          exfalso
          simp [ambiguousEval, hqe, hr] at hamb
        | null =>
          refine ⟨by simp [EvaluatePolicy, hq, hqe, hr], ?_⟩
          simp only [EvaluatePolicy, hq, hqe, hr]
          decide
        | num m =>
          refine ⟨by simp [EvaluatePolicy, hq, hqe, hr], ?_⟩
          simp only [EvaluatePolicy, hq, hqe, hr]
          decide
        | str s =>
          refine ⟨by simp [EvaluatePolicy, hq, hqe, hr], ?_⟩
          simp only [EvaluatePolicy, hq, hqe, hr]
          decide
        | arr xs =>
          refine ⟨by simp [EvaluatePolicy, hq, hqe, hr], ?_⟩
          simp only [EvaluatePolicy, hq, hqe, hr]
          decide
        | obj fs =>
          refine ⟨by simp [EvaluatePolicy, hq, hqe, hr], ?_⟩
          simp only [EvaluatePolicy, hq, hqe, hr]
          decide

/-- Witness for C6 at a registered policy with an empty result set. -/
theorem evaluatePolicy_no_default_allow_witness :
    (EvaluatePolicy pmAmb "pe" []).1.allowed = false
    ∧ (EvaluatePolicy pmAmb "pe" []).1.error ≠ "" :=
  evaluatePolicy_no_default_allow pmAmb [] "pe" qEmptyResults rfl rfl

/-- Claim C7: the empty policy list always evaluates to allow with no
error and a nil Go error, for every manager (so no policy is consulted). -/
theorem evaluatePolicies_empty_allows (pm : PolicyManager) (input : PolicyInput) :
    EvaluatePolicies pm [] input = ({ allowed := true, error := "" }, none) :=
  rfl

/-- Claim C9: both `EvaluatePolicy` and `EvaluatePolicies` return a nil
Go error on every input, so every `err != nil` branch guarded on them —
in `EvaluatePolicies` itself and in the HTTP handlers — is unreachable. -/
theorem evaluate_go_error_always_nil (pm : PolicyManager) (policyName : String)
    (names : List String) (input : PolicyInput) :
    (EvaluatePolicy pm policyName input).2 = none
    ∧ (EvaluatePolicies pm names input).2 = none :=
  ⟨evaluatePolicy_err_none pm policyName input, evaluatePolicies_err_none pm names input⟩

/-- Claim C10: the policy input always binds "method", "path" and
"headers" to the given arguments, and binds "body" exactly when the body
argument is a present JSON object (whose fields it reproduces); any
other body — absent, array, string, number, boolean or null — leaves the
key out. -/
theorem createPolicyInput_keys (method path : String) (headers : List (String × String))
    (body : Option GoValue) :
    List.lookup "method" (CreatePolicyInput method path headers body)
        = some (GoValue.str method)
    ∧ List.lookup "path" (CreatePolicyInput method path headers body)
        = some (GoValue.str path)
    ∧ List.lookup "headers" (CreatePolicyInput method path headers body)
        = some (headersToGoValue headers)
    ∧ List.lookup "body" (CreatePolicyInput method path headers body)
        = (match body with
           | some (GoValue.obj fields) => some (GoValue.obj fields)
           | _ => none) := by
  cases body with
  | none => exact ⟨rfl, rfl, rfl, rfl⟩
  | some v => cases v <;> exact ⟨rfl, rfl, rfl, rfl⟩

/-- Claim C3: when the parsed POST body fails request-schema validation,
`handlePOST` terminates with the 400 validation outcome; the outcome is
the same for every policy manager (quantified arbitrarily here and
absent from the right-hand side), so no policy named by the route is
ever evaluated — request validation strictly precedes policy
evaluation. -/
theorem handlePOST_validation_precedes_policy (pm : PolicyManager) (sv : SchemaValidator)
    (route : RouteConfig) (headers : List (String × String)) (requestBody : Option GoValue)
    (urlPath : String) (clock : GoClock)
    (hv : (ValidateRequest sv route.requestSchema requestBody).valid = false) :
    handlePOST { policyManager := pm, schemaValidator := sv } route headers
        (Except.ok requestBody) urlPath clock
      = (HttpResponse.badRequest (GoValue.obj
          [("error", GoValue.str "Request validation failed"),
           ("details", GoValue.str (FormatValidationErrors
             (ValidateRequest sv route.requestSchema requestBody).errors))]), []) := by
  unfold handlePOST
  simp [hv]

/-- Witness for C3 at a route with a one-entry request schema and an
engine that rejects the body. -/
theorem handlePOST_validation_precedes_policy_witness :
    handlePOST { policyManager := pmSample, schemaValidator := svFail } routePostSample []
        (Except.ok none) "/r" clockSample
      = (HttpResponse.badRequest (GoValue.obj
          [("error", GoValue.str "Request validation failed"),
           ("details", GoValue.str (FormatValidationErrors
             (ValidateRequest svFail routePostSample.requestSchema none).errors))]), []) :=
  handlePOST_validation_precedes_policy pmSample svFail routePostSample [] none "/r"
    clockSample rfl

/-- Claim C8: PUT and DELETE routes register successfully (the method is
accepted by the registration switch), yet every invocation of the
generated handler answers 405 Method Not Allowed — a constant outcome
mentioning neither the schemas, the policy manager nor the request, so
no validation, policy evaluation or response production happens. -/
theorem put_delete_register_but_handler_405 (route : RouteConfig) (rm : RouteManager)
    (req : RequestData) (hm : route.method = "PUT" ∨ route.method = "DELETE") :
    registerRoute route = Except.ok ()
    ∧ createHandler rm route req
        = (HttpResponse.methodNotAllowed (GoValue.obj
            [("error", GoValue.str "Method not allowed")]), []) := by
  rcases hm with h | h <;> exact ⟨by simp [registerRoute, h], by simp [createHandler, h]⟩

/-- Witness for C8 at a concrete PUT route. -/
theorem put_delete_register_but_handler_405_witness :
    registerRoute routePutSample = Except.ok ()
    ∧ createHandler { policyManager := pmSample, schemaValidator := svPass }
        routePutSample reqSample
      = (HttpResponse.methodNotAllowed (GoValue.obj
          [("error", GoValue.str "Method not allowed")]), []) :=
  put_delete_register_but_handler_405 routePutSample
    { policyManager := pmSample, schemaValidator := svPass } reqSample (Or.inl rfl)

/-- Claim C4 counterexample: a status route whose configured
`responseSchema` rejects the produced response — by the validator's own
`ValidateResponse` — while the handler, which never reads
`route.responseSchema`, records no violation (it validates against the
hardcoded status schema, which passes here) and returns the response.
So a response failing validation against the route's response schema is
not recorded/logged, contrary to the claim as stated. -/
theorem response_schema_route_ignored_cex :
    (ValidateResponse svRouteOnlyFail routeStatusWithRespSchema.responseSchema
        (some (statusResponseToGoValue (GenerateStatusResponse clockSample)))).valid = false
    ∧ handleGET { policyManager := pmSample, schemaValidator := svRouteOnlyFail }
        routeStatusWithRespSchema [] clockSample
      = (HttpResponse.ok (some (statusResponseToGoValue (GenerateStatusResponse clockSample))),
         []) :=
  ⟨rfl, rfl⟩

/-- Claim C4 (amended): the response validation the handlers actually
perform — against the hardcoded status/traffic schemas, the route's
configured `responseSchema` being never read — is non-terminal: when it
fails, the handler only logs the violation and still returns the
produced response with the 200 success outcome. -/
theorem response_validation_nonterminal (pm : PolicyManager) (sv : SchemaValidator)
    (routeG routeP : RouteConfig) (headers : List (String × String))
    (bodyP : Option GoValue) (urlPath : String) (clock : GoClock)
    (hG : routeG.routeName = "/v1/status")
    (hGallow : (EvaluatePolicies pm routeG.policies
        (CreatePolicyInput "GET" routeG.routeName headers none)).1.allowed = true)
    (hGval : (ValidateStatusResponse sv (GenerateStatusResponse clock)).valid = false)
    (hP1 : strContains routeP.routeName "/services/" = true)
    (hP2 : strHasSfx routeP.routeName "/traffic" = true)
    (hPlen : (strSplit urlPath '/').length ≥ 4)
    (hPreq : (ValidateRequest sv routeP.requestSchema bodyP).valid = true)
    (hPallow : (EvaluatePolicies pm routeP.policies
        (CreatePolicyInput "POST" routeP.routeName headers bodyP)).1.allowed = true)
    (hPval : (ValidateTrafficResponse sv (GenerateTrafficResponse
        ((strSplit urlPath '/').getD 3 "") (decodeTrafficRequest bodyP) clock)).valid
          = false) :
    handleGET { policyManager := pm, schemaValidator := sv } routeG headers clock
      = (HttpResponse.ok (some (statusResponseToGoValue (GenerateStatusResponse clock))),
         ["Response validation failed: " ++ renderStringList
            (ValidateStatusResponse sv (GenerateStatusResponse clock)).errors])
    ∧ handlePOST { policyManager := pm, schemaValidator := sv } routeP headers
        (Except.ok bodyP) urlPath clock
      = (HttpResponse.ok (some (trafficResponseToGoValue (GenerateTrafficResponse
            ((strSplit urlPath '/').getD 3 "") (decodeTrafficRequest bodyP) clock))),
         ["Response validation failed: " ++ renderStringList
            (ValidateTrafficResponse sv (GenerateTrafficResponse
              ((strSplit urlPath '/').getD 3 "") (decodeTrafficRequest bodyP) clock)).errors]) := by
  constructor
  · rcases hE : EvaluatePolicies pm routeG.policies
        (CreatePolicyInput "GET" routeG.routeName headers none) with ⟨r, err⟩
    have herr : err = none := by
      have h := evaluatePolicies_err_none pm routeG.policies
        (CreatePolicyInput "GET" routeG.routeName headers none)
      rw [hE] at h
      exact h
    subst herr
    have hra : r.allowed = true := by
      rw [hE] at hGallow
      exact hGallow
    simp only [handleGET, hE]
    rw [if_neg (by simp [hra]), if_pos hG]
    simp [hGval]
  · rcases hE : EvaluatePolicies pm routeP.policies
        (CreatePolicyInput "POST" routeP.routeName headers bodyP) with ⟨r, err⟩
    have herr : err = none := by
      have h := evaluatePolicies_err_none pm routeP.policies
        (CreatePolicyInput "POST" routeP.routeName headers bodyP)
      rw [hE] at h
      exact h
    subst herr
    have hra : r.allowed = true := by
      rw [hE] at hPallow
      exact hPallow
    simp only [handlePOST]
    rw [if_neg (by simp [hPreq])]
    simp only [hE]
    rw [if_neg (by simp [hra]), if_pos (by simp [hP1, hP2]), if_pos hPlen]
    simp only [List.getD_eq_getElem?_getD] at hPval ⊢
    simp [hPval]

/-- Witness for the amended C4 at concrete routes, an engine that
rejects every non-empty schema, and empty policy lists. -/
theorem response_validation_nonterminal_witness :
    handleGET { policyManager := pmSample, schemaValidator := svFail }
        routeStatusSample [] clockSample
      = (HttpResponse.ok (some (statusResponseToGoValue (GenerateStatusResponse clockSample))),
         ["Response validation failed: " ++ renderStringList
            (ValidateStatusResponse svFail (GenerateStatusResponse clockSample)).errors])
    ∧ handlePOST { policyManager := pmSample, schemaValidator := svFail }
        routeTrafficSample [] (Except.ok none) "/v1/services/service123/traffic" clockSample
      = (HttpResponse.ok (some (trafficResponseToGoValue (GenerateTrafficResponse
            ((strSplit "/v1/services/service123/traffic" '/').getD 3 "")
            (decodeTrafficRequest none) clockSample))),
         ["Response validation failed: " ++ renderStringList
            (ValidateTrafficResponse svFail (GenerateTrafficResponse
              ((strSplit "/v1/services/service123/traffic" '/').getD 3 "")
              (decodeTrafficRequest none) clockSample)).errors]) :=
  response_validation_nonterminal pmSample svFail routeStatusSample routeTrafficSample []
    none "/v1/services/service123/traffic" clockSample rfl rfl rfl (by decide) (by decide)
    (by decide) rfl rfl rfl
